import Mathlib

/-!
Shallow embedding of the filter-and-aggregate pipeline of the Movie_App
dashboard scripts (`CA2_Integrated_DataVisualisation_Aline_SIlva.py` and
`movies_recomendation.py`; the two files contain the same pipeline).

Rows of the three CSV files are modelled as Lean structures, pandas frames
as lists of rows, `groupby`/`merge`/`sort_values`/`value_counts` as list
operations, and the `update_dashboard` callback as a pure function from the
three record sets and the three filter controls to the four chart-ready
tables.  Floating point scores are modelled as rationals; the sample
standard deviation column is carried as its square (a rational), with the
standard deviation itself recovered as a real square root.
-/

namespace MovieApp

/-- One row of `movies.csv`: id, display name and the raw pipe-delimited
genre field. -/
structure Movie where
  movieId : Nat
  title : String
  genres : String
deriving Repr, DecidableEq

/-- One row of `rating.csv`: one user's numeric score for one title. -/
structure Rating where
  userId : Nat
  movieId : Nat
  rating : Rat
deriving Repr, DecidableEq

/-- One row of `tags.csv`: one user's free-text tag on one title. -/
structure TagEvent where
  userId : Nat
  movieId : Nat
  tag : String
deriving Repr, DecidableEq

/-- A cell of the `year` column of the merged frame.  In the `movies` frame
the column holds either an extracted 4-digit string or NaN; the final
`.fillna(0)` of the merge replaces the NaN cells by the integer `0`,
so the merged column is a mix of strings and that numeric filler. -/
inductive YearCell where
  | str (y : String)
  | filledZero
deriving Repr, DecidableEq

/-- The regex `\((\d{4})\)` matched at the start of a character list:
an opening parenthesis, four digits, a closing parenthesis. -/
def matchYearAt : List Char → Option (List Char)
  | '(' :: a :: b :: c :: d :: ')' :: _ =>
      if a.isDigit && b.isDigit && c.isDigit && d.isDigit then
        some [a, b, c, d] else none
  | _ => none

/-- `re.search` semantics: try the pattern at each position, left to right,
and return the first (leftmost) match. -/
def findYearAux : List Char → Option (List Char)
  | [] => none
  | c :: cs =>
    match matchYearAt (c :: cs) with
    | some y => some y
    | none => findYearAux cs

/-- `movies['title'].str.extract(r'\((\d{4})\)')`: the first 4-digit
parenthesized group anywhere in the display name, `none` (NaN) when the
pattern occurs nowhere. -/
def extract_year (s : String) : Option String :=
  (findYearAux s.toList).map List.asString

/-- The spec's reading of year extraction, for comparison with the code's:
parse a 4-digit parenthesized year from the END of the string, `none` when
no such suffix exists. -/
def specExtractYearFromEnd (s : String) : Option String :=
  match s.toList.reverse with
  | ')' :: d :: c :: b :: a :: '(' :: _ =>
      if a.isDigit && b.isDigit && c.isDigit && d.isDigit then
        some (String.mk [a, b, c, d]) else none
  | _ => none

/-- Split a character list at every `'|'`; Python's `str.split('|')`. -/
def splitPipeAux (acc : List Char) : List Char → List String
  | [] => [acc.reverse.asString]
  | c :: cs =>
    if c = '|' then acc.reverse.asString :: splitPipeAux [] cs
    else splitPipeAux (c :: acc) cs

/-- `movies['genres'].str.split('|')`: the list of genre strings between
the pipe delimiters (an empty field yields the one-element list `[""]`,
as in Python). -/
def split_genres (s : String) : List String := splitPipeAux [] s.toList

/-- `any(genre in x for genre in selected_genres)`: Python's `in` on two
strings is substring containment, i.e. the selected genre's character list
is an infix of the raw genre field's character list. -/
def genreSel (selected : List String) (genres : String) : Bool :=
  selected.any (fun g => decide (g.toList <:+: genres.toList))

/-- Python's lexicographic string comparison, on code points. -/
def charListLE : List Char → List Char → Bool
  | [], _ => true
  | _ :: _, [] => false
  | a :: as, b :: bs =>
    if a.toNat < b.toNat then true
    else if b.toNat < a.toNat then false
    else charListLE as bs

/-- `a <= b` on Python strings. -/
def pyStrLE (a b : String) : Bool := charListLE a.toList b.toList

/-- `movies['year'].between(str(lo), str(hi))`: inclusive comparison of the
year string against the stringified bounds; a NaN year compares `False`. -/
def yearBetween (y : Option String) (lo hi : String) : Bool :=
  match y with
  | none => false
  | some s => pyStrLE lo s && pyStrLE s hi

/-- `filtered_movies`: rows of `movies` whose raw genre field contains some
selected genre as a substring and whose year string lies between the
stringified slider bounds. -/
def filteredMovies (movies : List Movie) (selected : List String)
    (y0 y1 : Nat) : List Movie :=
  movies.filter
    (fun m => genreSel selected m.genres &&
      yearBetween (extract_year m.title) (toString y0) (toString y1))

/-- The scores of all rating events for a given title id, in frame order. -/
def scoresOf (ratings : List Rating) (mid : Nat) : List Rat :=
  (ratings.filter (fun r => r.movieId == mid)).map (·.rating)

/-- Mean of a list of rationals (`('rating', 'mean')`). -/
def meanQ (xs : List Rat) : Rat := xs.sum / (xs.length : Rat)

/-- Sample variance, the square of pandas' `('rating', 'std')` (`ddof=1`). -/
def sampleVar (xs : List Rat) : Rat :=
  ((xs.map (fun x => (x - meanQ xs) ^ 2)).sum) / ((xs.length : Rat) - 1)

/-- The squared `rating_std` cell after the groupby-level `.fillna(0)`:
pandas' sample std of a single value is NaN and `fillna` turns it into 0;
groups never have zero members. -/
def stdSqCell (xs : List Rat) : Rat :=
  if xs.length ≤ 1 then 0 else sampleVar xs

/-- One row of the merged `movie_stats` frame
(`movies.merge(movie_stats).merge(tag_stats).fillna(0)`). -/
structure MovieStat where
  movieId : Nat
  title : String
  genres : String
  year : YearCell
  genres_list : List String
  avg_rating : Rat
  rating_count : Nat
  rating_std_sq : Rat
  tag_count : Nat
  unique_taggers : Nat
deriving Repr, DecidableEq

/-- The `rating_std` column itself: the square root of the carried square.
Zero-filled cells have square 0, hence std 0. -/
noncomputable def MovieStat.rating_std (r : MovieStat) : Real :=
  Real.sqrt (r.rating_std_sq : Real)

/-- The merged row for one movie: a left join against the rating and tag
group statistics, with `.fillna(0)` turning the NaN cells of unmatched
movies into zeros (an absent title id has no rating events, so the uniform
formulas below coincide with the zero fill). -/
def mergedRow (ratings : List Rating) (tags : List TagEvent)
    (m : Movie) : MovieStat :=
  let xs := scoresOf ratings m.movieId
  let ts := tags.filter (fun t => t.movieId == m.movieId)
  { movieId := m.movieId
    title := m.title
    genres := m.genres
    year := match extract_year m.title with
            | some y => .str y
            | none => .filledZero
    genres_list := split_genres m.genres
    avg_rating := if xs.isEmpty then 0 else meanQ xs
    rating_count := xs.length
    rating_std_sq := stdSqCell xs
    tag_count := ts.length
    unique_taggers := ((ts.map (·.userId)).dedup).length }

/-- The merged `movie_stats` frame: one row per row of `movies`, in order. -/
def movie_stats (movies : List Movie) (ratings : List Rating)
    (tags : List TagEvent) : List MovieStat :=
  movies.map (mergedRow ratings tags)

/-- `movies.explode('genres_list')` projected onto the genre column:
one entry per (title, genre) pair, in frame order. -/
def explodedGenres (movies : List Movie) : List String :=
  movies.flatMap (fun m => split_genres m.genres)

/-- The key column of a `groupby` over strings: distinct keys, sorted
ascending (pandas `groupby(..., sort=True)`). -/
def groupKeysAsc (rows : List String) : List String :=
  rows.dedup.mergeSort pyStrLE

/-- `groupby('genres_list').size().reset_index(name='count')`. -/
def genreSize (movies : List Movie) : List (String × Nat) :=
  (groupKeysAsc (explodedGenres movies)).map
    (fun g => (g, (explodedGenres movies).count g))

/-- `genre_popularity`: the genre sizes re-sorted by count descending. -/
def genre_popularity (movies : List Movie) : List (String × Nat) :=
  (genreSize movies).mergeSort (fun a b => decide (b.2 ≤ a.2))

/-- `genre_counts` of the callback: the exploded genre rows restricted by
`isin(selected_genres)` (exact string membership), then grouped with sizes.
Note the source applies this to the full `movies` frame: the year and
rating bounds play no part here. -/
def genre_counts (movies : List Movie) (selected : List String) :
    List (String × Nat) :=
  let rows := (explodedGenres movies).filter (fun g => selected.contains g)
  (groupKeysAsc rows).map (fun g => (g, rows.count g))

/-- `ratings.merge(filtered_movies[['movieId', 'year']], on='movieId')`
restricted to the rows whose year cell is not NaN (a `groupby` on the year
column drops NaN keys): one (year, score) pair per matching
(rating event, filtered movie) pair. -/
def trendKnown (ratings : List Rating) (fm : List Movie) :
    List (String × Rat) :=
  ratings.flatMap (fun r =>
    (fm.filter (fun m => m.movieId == r.movieId)).filterMap
      (fun m => (extract_year m.title).map (fun y => (y, r.rating))))

/-- `yearly_avg`: group the joined (year, score) pairs by year, mean score
per year, keys ascending. -/
def yearly_avg (ratings : List Rating) (fm : List Movie) :
    List (String × Rat) :=
  let rows := trendKnown ratings fm
  (groupKeysAsc (rows.map Prod.fst)).map
    (fun y => (y, meanQ ((rows.filter (fun p => p.1 == y)).map Prod.snd)))

/-- `filtered_stats`: merged rows whose title id survived the title filter
and whose average rating lies in the inclusive score bound. -/
def filteredStats (stats : List MovieStat) (fIds : List Nat)
    (r0 r1 : Rat) : List MovieStat :=
  stats.filter (fun r => fIds.contains r.movieId &&
    (decide (r0 ≤ r.avg_rating) && decide (r.avg_rating ≤ r1)))

/-- The comparison used by
`sort_values(['avg_rating', 'rating_count'], ascending=[False, False])`:
lexicographic on (average rating descending, rating count descending).
With several sort columns pandas uses a stable lexicographic sort. -/
def topLE (a b : MovieStat) : Bool :=
  decide (b.avg_rating < a.avg_rating) ||
    (decide (a.avg_rating = b.avg_rating) && decide (b.rating_count ≤ a.rating_count))

/-- `top_movies`: the filtered stats sorted by the two descending keys
(stably), first 20 rows. -/
def top_movies (fs : List MovieStat) : List MovieStat :=
  (fs.mergeSort topLE).take 20

/-- First-occurrence deduplication, the key order produced by pandas'
hash-based `value_counts` before its count sort. -/
def firstDedup : List String → List String
  | [] => []
  | a :: as => a :: firstDedup (as.filter (fun b => !(b == a)))
termination_by l => l.length
decreasing_by
  exact Nat.lt_succ_of_le (List.length_filter_le _ _)

/-- `Series.value_counts()`: count per distinct value, sorted by count
descending (stable on the first-occurrence key order). -/
def value_counts (xs : List String) : List (String × Nat) :=
  ((firstDedup xs).map (fun t => (t, xs.count t))).mergeSort
    (fun a b => decide (b.2 ≤ a.2))

/-- `tag_counts`: tag events restricted to the filtered title ids, tag
value counts, first 20 rows. -/
def tag_counts (tags : List TagEvent) (fIds : List Nat) :
    List (String × Nat) :=
  (value_counts ((tags.filter (fun t => fIds.contains t.movieId)).map (·.tag))).take 20

/-- The four chart-ready tables returned by one run of the callback. -/
structure Projections where
  genreProj : List (String × Nat)
  trendProj : List (String × Rat)
  topProj : List MovieStat
  tagProj : List (String × Nat)

/-- The `update_dashboard` callback: apply the three filter controls and
produce the four projections.  There is no validation and no failure path;
the function is total. -/
def update_dashboard (movies : List Movie) (ratings : List Rating)
    (tags : List TagEvent) (selected_genres : List String)
    (year_range : Nat × Nat) (rating_range : Rat × Rat) : Projections :=
  let fm := filteredMovies movies selected_genres year_range.1 year_range.2
  let fIds := fm.map (·.movieId)
  let fs := filteredStats (movie_stats movies ratings tags) fIds
    rating_range.1 rating_range.2
  { genreProj := genre_counts movies selected_genres
    trendProj := yearly_avg ratings fm
    topProj := top_movies fs
    tagProj := tag_counts tags fIds }

/-! ### Order properties of the comparators -/

theorem charListLE_cons_iff (x y : Char) (xs ys : List Char) :
    charListLE (x :: xs) (y :: ys) = true ↔
      (x.toNat < y.toNat ∨ (x.toNat = y.toNat ∧ charListLE xs ys = true)) := by
  have e : charListLE (x :: xs) (y :: ys)
      = if x.toNat < y.toNat then true
        else if y.toNat < x.toNat then false
        else charListLE xs ys := rfl
  rw [e]
  by_cases h1 : x.toNat < y.toNat
  · simp only [if_pos h1, true_iff]
    exact Or.inl h1
  · by_cases h2 : y.toNat < x.toNat
    · simp only [if_neg h1, if_pos h2]
      constructor
      · intro h; cases h
      · rintro (h | ⟨h, _⟩) <;> omega
    · have h3 : x.toNat = y.toNat := by omega
      simp only [if_neg h1, if_neg h2]
      constructor
      · intro h; exact Or.inr ⟨h3, h⟩
      · rintro (h | ⟨_, h⟩)
        · omega
        · exact h

theorem charListLE_total : ∀ (a b : List Char), charListLE a b || charListLE b a := by
  intro a
  induction a with
  | nil => intro b; simp [charListLE]
  | cons x xs ih =>
    intro b
    cases b with
    | nil => simp [charListLE]
    | cons y ys =>
      rw [Bool.or_eq_true, charListLE_cons_iff, charListLE_cons_iff]
      rcases Nat.lt_trichotomy x.toNat y.toNat with h | h | h
      · exact Or.inl (Or.inl h)
      · have hy : charListLE xs ys = true ∨ charListLE ys xs = true := by
          simpa using ih ys
        rcases hy with hy | hy
        · exact Or.inl (Or.inr ⟨h, hy⟩)
        · exact Or.inr (Or.inr ⟨h.symm, hy⟩)
      · exact Or.inr (Or.inl h)

theorem charListLE_trans : ∀ (a b c : List Char),
    charListLE a b → charListLE b c → charListLE a c := by
  intro a
  induction a with
  | nil => intro b c _ _; simp [charListLE]
  | cons x xs ih =>
    intro b c hab hbc
    cases b with
    | nil => simp [charListLE] at hab
    | cons y ys =>
      cases c with
      | nil => simp [charListLE] at hbc
      | cons z zs =>
        rw [charListLE_cons_iff] at hab hbc ⊢
        rcases hab with h1 | ⟨h1, hr1⟩ <;> rcases hbc with h2 | ⟨h2, hr2⟩
        · exact Or.inl (by omega)
        · exact Or.inl (by omega)
        · exact Or.inl (by omega)
        · exact Or.inr ⟨by omega, ih ys zs hr1 hr2⟩

theorem pyStrLE_total (a b : String) : pyStrLE a b || pyStrLE b a :=
  charListLE_total a.toList b.toList

theorem pyStrLE_trans (a b c : String) (h1 : pyStrLE a b) (h2 : pyStrLE b c) :
    pyStrLE a c :=
  charListLE_trans a.toList b.toList c.toList h1 h2

theorem topLE_total (a b : MovieStat) : topLE a b || topLE b a := by
  simp only [topLE, Bool.or_eq_true, decide_eq_true_eq, Bool.and_eq_true]
  rcases lt_trichotomy a.avg_rating b.avg_rating with h | h | h
  · exact Or.inr (Or.inl h)
  · rcases Nat.le_total b.rating_count a.rating_count with hc | hc
    · exact Or.inl (Or.inr ⟨h, hc⟩)
    · exact Or.inr (Or.inr ⟨h.symm, hc⟩)
  · exact Or.inl (Or.inl h)

theorem topLE_trans (a b c : MovieStat) (h1 : topLE a b) (h2 : topLE b c) :
    topLE a c := by
  simp only [topLE, Bool.or_eq_true, decide_eq_true_eq, Bool.and_eq_true] at h1 h2 ⊢
  rcases h1 with h1 | ⟨h1e, h1c⟩ <;> rcases h2 with h2 | ⟨h2e, h2c⟩
  · exact Or.inl (h2.trans h1)
  · exact Or.inl (h2e ▸ h1)
  · exact Or.inl (h1e ▸ h2)
  · exact Or.inr ⟨h1e.trans h2e, h2c.trans h1c⟩

/-! ### Generic list lemmas -/

theorem sum_map_add_nat (l : List α) (f g : α → Nat) :
    (l.map (fun x => f x + g x)).sum = (l.map f).sum + (l.map g).sum := by
  induction l with
  | nil => simp
  | cons a as ih => simp [ih]; omega

theorem sum_map_ind [DecidableEq α] :
    ∀ (keys : List α) (r : α), keys.Nodup → r ∈ keys →
    (keys.map (fun k => if r == k then 1 else 0)).sum = 1 := by
  intro keys
  induction keys with
  | nil => intro r _ hr; cases hr
  | cons k ks ih =>
    intro r hnd hr
    by_cases hkr : r = k
    · subst hkr
      have hk : r ∉ ks := (List.nodup_cons.1 hnd).1
      have hz : (ks.map (fun c => if r == c then 1 else 0)).sum = 0 :=
        List.sum_eq_zero (by
          intro x hx
          rcases List.mem_map.1 hx with ⟨c, hc, rfl⟩
          simp only [beq_iff_eq, ite_eq_right_iff]
          intro hrc; exact absurd (hrc ▸ hc) hk)
      rw [List.map_cons, List.sum_cons, hz]
      simp
    · have h1 : r ∈ ks := by
        rcases List.mem_cons.1 hr with h | h
        · exact absurd h hkr
        · exact h
      have hne : ¬(r == k) = true := by simpa using hkr
      rw [List.map_cons, List.sum_cons, if_neg hne,
        ih r (List.nodup_cons.1 hnd).2 h1]

theorem sum_map_count_of_nodup [DecidableEq α] (keys : List α) :
    ∀ (rows : List α), keys.Nodup → (∀ x ∈ rows, x ∈ keys) →
    (keys.map (fun k => rows.count k)).sum = rows.length := by
  intro rows
  induction rows with
  | nil => intro _ _; simp
  | cons r rs ih =>
    intro hnd hsub
    have hcnt : ∀ k : α, (r :: rs).count k = rs.count k + (if r == k then 1 else 0) := by
      intro k
      by_cases hrk : r = k
      · subst hrk; simp [List.count_cons]
      · simp [List.count_cons, hrk, Ne.symm hrk]
    have h1 : (keys.map (fun k => (r :: rs).count k)).sum
        = (keys.map (fun k => rs.count k)).sum
          + (keys.map (fun k => if r == k then 1 else 0)).sum := by
      rw [← sum_map_add_nat]
      exact congrArg _ (List.map_congr_left (fun k _ => hcnt k))
    rw [h1, ih hnd (fun x hx => hsub x (List.mem_cons_of_mem r hx)),
      sum_map_ind keys r hnd (hsub r (List.mem_cons_self r rs))]
    simp

/-- Stability consequence of `mergeSort`: the elements selected by a
predicate that forces mutual `le` keep exactly their input order. -/
theorem mergeSort_filter_eq {α : Type} (le : α → α → Bool) (p : α → Bool)
    (trans : ∀ (a b c : α), le a b → le b c → le a c)
    (total : ∀ (a b : α), le a b || le b a)
    (hp : ∀ a b, p a → p b → le a b)
    (l : List α) : (l.mergeSort le).filter p = l.filter p := by
  have hpw : (l.filter p).Pairwise (fun a b => le a b) :=
    List.pairwise_of_forall_mem_list
      (fun a ha b hb => hp a b (List.mem_filter.1 ha).2 (List.mem_filter.1 hb).2)
  have hsub : List.Sublist (l.filter p) (l.mergeSort le) :=
    List.sublist_mergeSort trans total hpw (List.filter_sublist l)
  have h2 : List.Sublist ((l.filter p).filter p) ((l.mergeSort le).filter p) :=
    hsub.filter p
  have h3 : List.Sublist (l.filter p) ((l.mergeSort le).filter p) := by
    simpa [List.filter_filter] using h2
  have hperm : List.Perm ((l.mergeSort le).filter p) (l.filter p) :=
    (List.mergeSort_perm l le).filter p
  exact (h3.eq_of_length hperm.length_eq.symm).symm

theorem mem_firstDedup : ∀ (l : List String) (a : String),
    a ∈ firstDedup l ↔ a ∈ l := by
  intro l
  induction l using firstDedup.induct with
  | case1 => intro a; simp [firstDedup]
  | case2 x xs ih =>
    intro a
    rw [firstDedup]
    by_cases hax : a = x
    · subst hax; simp
    · simp only [List.mem_cons, ih a, List.mem_filter]
      constructor
      · rintro (rfl | ⟨h, _⟩)
        · exact Or.inl rfl
        · exact Or.inr h
      · rintro (rfl | h)
        · exact Or.inl rfl
        · exact Or.inr ⟨h, by simpa using hax⟩

/-! ### Soundness of the year extraction -/

theorem matchYearAt_sound (cs y : List Char) (h : matchYearAt cs = some y) :
    y.length = 4 ∧ y.all Char.isDigit ∧ ('(' :: (y ++ [')'])) <+: cs := by
  unfold matchYearAt at h
  split at h
  · rename_i a b c d rest
    split at h
    · rename_i hdig
      cases h
      obtain ⟨⟨⟨ha, hb⟩, hc⟩, hd⟩ : ((_ ∧ _) ∧ _) ∧ _ := by simpa using hdig
      exact ⟨rfl, by simp [ha, hb, hc, hd], ⟨rest, rfl⟩⟩
    · cases h
  · cases h

theorem findYearAux_sound : ∀ (cs y : List Char), findYearAux cs = some y →
    y.length = 4 ∧ y.all Char.isDigit ∧ ('(' :: (y ++ [')'])) <:+: cs := by
  intro cs
  induction cs with
  | nil => intro y h; cases h
  | cons c cs ih =>
    intro y h
    rw [findYearAux] at h
    cases hm : matchYearAt (c :: cs) with
    | some z =>
      rw [hm] at h; cases h
      obtain ⟨h1, h2, h3⟩ := matchYearAt_sound _ _ hm
      exact ⟨h1, h2, h3.isInfix⟩
    | none =>
      rw [hm] at h
      obtain ⟨h1, h2, s, t, h3⟩ := ih y h
      exact ⟨h1, h2, c :: s, t, by simp [← h3]⟩

/-! ### Claims -/

/-- C1 (counterexample): the genre filter admits the title
`⟨1, "Alien (2000)", "Sci-Fi"⟩` for the selection `["Sci"]`, although no
selected genre is a member of the title's genre list `["Sci-Fi"]` — the
code matches substrings of the raw genre field, not list members. -/
theorem c1_counterexample :
    filteredMovies [⟨1, "Alien (2000)", "Sci-Fi"⟩] ["Sci"] 1990 2010
        = [⟨1, "Alien (2000)", "Sci-Fi"⟩] ∧
    ¬ ∃ g ∈ ["Sci"], g ∈ split_genres "Sci-Fi" := by
  constructor
  · decide
  · decide

/-- C1 (amended): the filter admits a title exactly when some selected
genre string is, under case-sensitive comparison, a substring of the
title's raw pipe-delimited genre field (and the title's year string lies
in the stringified year bound). -/
theorem c1_theorem (T : List Movie) (selected : List String) (y0 y1 : Nat)
    (m : Movie) :
    m ∈ filteredMovies T selected y0 y1 ↔
      m ∈ T ∧ (∃ g ∈ selected, g.toList <:+: m.genres.toList) ∧
        yearBetween (extract_year m.title) (toString y0) (toString y1) = true := by
  simp [filteredMovies, List.mem_filter, genreSel, List.any_eq_true, and_assoc]

/-- C3: with an empty genre selection the filtered title set is empty, and
the Top-N and genre-popularity projections are both empty, for any title,
rating and tag record sets and any year and score bounds. -/
theorem c3_theorem (T : List Movie) (R : List Rating) (G : List TagEvent)
    (yr : Nat × Nat) (rr : Rat × Rat) :
    filteredMovies T [] yr.1 yr.2 = [] ∧
    (update_dashboard T R G [] yr rr).topProj = [] ∧
    (update_dashboard T R G [] yr rr).genreProj = [] := by
  have hfm : filteredMovies T [] yr.1 yr.2 = [] := by
    simp [filteredMovies, genreSel]
  refine ⟨hfm, ?_, ?_⟩
  · simp [update_dashboard, hfm, filteredStats, top_movies, List.mergeSort_nil]
  · simp [update_dashboard, genre_counts, groupKeysAsc, List.mergeSort_nil]

/-- C7: the counts of the genre-popularity table sum to the number of
exploded (title, genre) pairs. -/
theorem c7_theorem (T : List Movie) :
    ((genre_popularity T).map Prod.snd).sum = (explodedGenres T).length := by
  have h1 : List.Perm (genre_popularity T) (genreSize T) :=
    List.mergeSort_perm _ _
  have h2 : ((genre_popularity T).map Prod.snd).sum
      = ((genreSize T).map Prod.snd).sum :=
    (h1.map Prod.snd).sum_eq
  rw [h2]
  have h3 : (genreSize T).map Prod.snd
      = (groupKeysAsc (explodedGenres T)).map
          (fun g => (explodedGenres T).count g) := by
    simp [genreSize, List.map_map, Function.comp]
  rw [h3]
  apply sum_map_count_of_nodup
  · exact (List.mergeSort_perm _ _).symm.nodup (List.nodup_dedup _)
  · intro x hx
    rw [groupKeysAsc, List.mem_mergeSort, List.mem_dedup]
    exact hx

/-- C4: every title appears in the merged aggregate (one row per title,
never dropped); a title with no rating events gets average 0, count 0 and
standard deviation 0, and a title with exactly one event gets standard
deviation 0. -/
theorem c4_theorem (T : List Movie) (R : List Rating) (G : List TagEvent)
    (m : Movie) (hm : m ∈ T) :
    (movie_stats T R G).length = T.length ∧
    ∃ r ∈ movie_stats T R G, r.movieId = m.movieId ∧
      (scoresOf R m.movieId = [] →
        r.avg_rating = 0 ∧ r.rating_count = 0 ∧ r.rating_std = 0) ∧
      ((scoresOf R m.movieId).length = 1 → r.rating_std = 0) := by
  refine ⟨by simp [movie_stats],
    ⟨mergedRow R G m, List.mem_map_of_mem _ hm, rfl, ?_, ?_⟩⟩
  · intro h
    refine ⟨?_, ?_, ?_⟩ <;>
      simp [mergedRow, h, MovieStat.rating_std, stdSqCell]
  · intro h
    simp [mergedRow, MovieStat.rating_std, stdSqCell, h]

/-- C4 witness: the statement instantiated at a one-title record set with
no rating events. -/
theorem c4_witness :
    (movie_stats [⟨1, "A", "Comedy"⟩] [] []).length = 1 ∧
    ∃ r ∈ movie_stats [⟨1, "A", "Comedy"⟩] [] [], r.movieId = 1 ∧
      (scoresOf [] 1 = [] →
        r.avg_rating = 0 ∧ r.rating_count = 0 ∧ r.rating_std = 0) ∧
      ((scoresOf [] 1).length = 1 → r.rating_std = 0) :=
  c4_theorem [⟨1, "A", "Comedy"⟩] [] [] ⟨1, "A", "Comedy"⟩ (by decide)

/-- C5 (counterexample): for the display name `"(1111) Galore"` there is no
4-digit parenthesized year at the end of the string — the spec's reading
returns `none` — yet the code's extraction returns `some "1111"`, the first
match anywhere in the string. -/
theorem c5_counterexample :
    extract_year "(1111) Galore" = some "1111" ∧
    specExtractYearFromEnd "(1111) Galore" = none := by
  exact ⟨by decide, by decide⟩

/-- C5 (amended): the extraction is total and returns the FIRST 4-digit
parenthesized group anywhere in the display name (so a successful parse is
a 4-digit all-digit string whose parenthesized form occurs in the name);
a title without such a group has a missing year, which makes every
year-range comparison on it false in the titles frame, while the merge's
`fillna(0)` coerces the missing year cell to the numeric filler 0 in the
aggregated record set. -/
theorem c5_theorem :
    (∀ s y, extract_year s = some y →
      y.length = 4 ∧ y.toList.all Char.isDigit ∧
        ('(' :: (y.toList ++ [')'])) <:+: s.toList) ∧
    (∀ lo hi, yearBetween none lo hi = false) ∧
    (∀ (R : List Rating) (G : List TagEvent) (m : Movie),
      extract_year m.title = none →
        (mergedRow R G m).year = YearCell.filledZero) := by
  refine ⟨?_, fun _ _ => rfl, ?_⟩
  · intro s y h
    unfold extract_year at h
    cases hf : findYearAux s.toList with
    | none => rw [hf] at h; cases h
    | some z =>
      rw [hf] at h
      cases h
      obtain ⟨h1, h2, h3⟩ := findYearAux_sound _ _ hf
      exact ⟨h1, h2, h3⟩
  · intro R G m h
    simp [mergedRow, h]

/-- C5 witness: the two universally quantified parts applied at concrete
inputs, with their hypotheses discharged by evaluation. -/
theorem c5_witness :
    ("1995".length = 4 ∧ "1995".toList.all Char.isDigit ∧
      ('(' :: ("1995".toList ++ [')'])) <:+: "Toy Story (1995)".toList) ∧
    yearBetween none "1990" "2010" = false ∧
    (mergedRow [] [] ⟨7, "Unknown", "Drama"⟩).year = YearCell.filledZero :=
  ⟨c5_theorem.1 "Toy Story (1995)" "1995" (by decide),
   c5_theorem.2.1 "1990" "2010",
   c5_theorem.2.2 [] [] ⟨7, "Unknown", "Drama"⟩ (by decide)⟩

unseal List.merge List.mergeSort MovieApp.firstDedup in
/-- C2 (counterexample): with the inverted year bound (2005, 2000) the
pipeline does not reject the selection; it returns all four projections,
and the genre-popularity projection — which ignores the year bound — is
even non-empty. -/
theorem c2_counterexample :
    (update_dashboard [⟨1, "Toy Story (1995)", "Comedy"⟩] [] [] ["Comedy"]
        (2005, 2000) (0, 5)).genreProj = [("Comedy", 1)] ∧
    (update_dashboard [⟨1, "Toy Story (1995)", "Comedy"⟩] [] [] ["Comedy"]
        (2005, 2000) (0, 5)).trendProj = [] ∧
    (update_dashboard [⟨1, "Toy Story (1995)", "Comedy"⟩] [] [] ["Comedy"]
        (2005, 2000) (0, 5)).topProj = [] ∧
    (update_dashboard [⟨1, "Toy Story (1995)", "Comedy"⟩] [] [] ["Comedy"]
        (2005, 2000) (0, 5)).tagProj = [] := by
  refine ⟨by decide, by decide, by decide, by decide⟩

/-- C2 (amended): the pipeline performs no range validation.  When the
stringified lower year bound exceeds the stringified upper bound (as with
(2005, 2000)), the year comparison admits no title, so the filtered title
set is empty and the trend, Top-N and tag projections are empty — while
the genre-popularity projection, which never looks at the year bound, is
still produced unchanged.  No InvalidRange failure exists. -/
theorem c2_theorem (T : List Movie) (R : List Rating) (G : List TagEvent)
    (sel : List String) (y0 y1 : Nat) (rr : Rat × Rat)
    (hlt : pyStrLE (toString y0) (toString y1) = false) :
    filteredMovies T sel y0 y1 = [] ∧
    (update_dashboard T R G sel (y0, y1) rr).trendProj = [] ∧
    (update_dashboard T R G sel (y0, y1) rr).topProj = [] ∧
    (update_dashboard T R G sel (y0, y1) rr).tagProj = [] ∧
    (update_dashboard T R G sel (y0, y1) rr).genreProj = genre_counts T sel := by
  have hyb : ∀ y, yearBetween y (toString y0) (toString y1) = false := by
    intro y
    cases y with
    | none => rfl
    | some s =>
      unfold yearBetween
      cases h1 : pyStrLE (toString y0) s with
      | false => simp [h1]
      | true =>
        cases h2 : pyStrLE s (toString y1) with
        | false => simp [h1, h2]
        | true =>
          have h3 := pyStrLE_trans _ _ _ h1 h2
          rw [hlt] at h3; cases h3
  have hfm : filteredMovies T sel y0 y1 = [] := by
    apply List.filter_eq_nil_iff.2
    intro m _
    simp [hyb]
  refine ⟨hfm, ?_, ?_, ?_, rfl⟩
  · show yearly_avg R (filteredMovies T sel y0 y1) = []
    rw [hfm]
    have ht : trendKnown R [] = [] :=
      List.flatMap_eq_nil_iff.2 (fun x _ => by simp)
    simp [yearly_avg, ht, groupKeysAsc, List.mergeSort_nil]
  · show top_movies (filteredStats (movie_stats T R G)
      ((filteredMovies T sel y0 y1).map (·.movieId)) rr.1 rr.2) = []
    rw [hfm]
    simp [filteredStats, top_movies, List.mergeSort_nil]
  · show tag_counts G ((filteredMovies T sel y0 y1).map (·.movieId)) = []
    rw [hfm]
    simp [tag_counts, value_counts, firstDedup, List.mergeSort_nil]

/-- C2 witness: the inverted bound (2005, 2000) satisfies the string
comparison hypothesis, and the theorem applies to it. -/
theorem c2_witness :
    pyStrLE (toString 2005) (toString 2000) = false ∧
    filteredMovies [⟨1, "Toy Story (1995)", "Comedy"⟩] ["Comedy"] 2005 2000 = [] :=
  ⟨by decide,
   (c2_theorem [⟨1, "Toy Story (1995)", "Comedy"⟩] [] [] ["Comedy"] 2005 2000
     (0, 5) (by decide)).1⟩

/-- C6: the Top-N projection is the first 20 rows of the filtered set
sorted by (average score descending, event count descending); the sort is
stable (the rows carrying any fixed (score, count) pair appear in exactly
their input order), the output length is `min 20` the input length, and
re-running the projection on its own output changes nothing. -/
theorem c6_theorem (fs : List MovieStat) :
    top_movies fs = (fs.mergeSort topLE).take 20 ∧
    (fs.mergeSort topLE).Pairwise (fun a b =>
      b.avg_rating < a.avg_rating ∨
        (a.avg_rating = b.avg_rating ∧ b.rating_count ≤ a.rating_count)) ∧
    (∀ q : Rat × Nat,
      (fs.mergeSort topLE).filter
          (fun r => decide (r.avg_rating = q.1 ∧ r.rating_count = q.2))
        = fs.filter
          (fun r => decide (r.avg_rating = q.1 ∧ r.rating_count = q.2))) ∧
    (top_movies fs).length = min 20 fs.length ∧
    top_movies (top_movies fs) = top_movies fs := by
  have hiff : ∀ a b : MovieStat, topLE a b = true ↔
      (b.avg_rating < a.avg_rating ∨
        (a.avg_rating = b.avg_rating ∧ b.rating_count ≤ a.rating_count)) := by
    intro a b; simp [topLE]
  have hsorted : (fs.mergeSort topLE).Pairwise (fun a b => topLE a b = true) :=
    List.sorted_mergeSort topLE_trans topLE_total fs
  refine ⟨rfl, hsorted.imp (fun h => (hiff _ _).1 h), ?_, ?_, ?_⟩
  · intro q
    apply mergeSort_filter_eq topLE _ topLE_trans topLE_total
    intro a b ha hb
    rw [decide_eq_true_eq] at ha hb
    rw [hiff]
    exact Or.inr ⟨ha.1.trans hb.1.symm, by rw [ha.2, hb.2]⟩
  · simp [top_movies]
  · have h1 : ((fs.mergeSort topLE).take 20).Pairwise
        (fun a b => topLE a b = true) :=
      hsorted.sublist (List.take_sublist 20 _)
    show ((top_movies fs).mergeSort topLE).take 20 = top_movies fs
    rw [top_movies, List.mergeSort_of_sorted h1, List.take_take]
    simp

/-- C8: the rating-trend projection is strictly ascending in the year key;
every output row's year is the year of some filtered title and its value
is the mean score of all joined (event, title) pairs for that year; and
the projection is entirely independent of the score-range control (the
events are not restricted by the rating bound). -/
theorem c8_theorem (T : List Movie) (R : List Rating) (G : List TagEvent)
    (sel : List String) (yr : Nat × Nat) (rr rr' : Rat × Rat) :
    ((update_dashboard T R G sel yr rr).trendProj.map Prod.fst).Pairwise
        (fun a b => pyStrLE a b = true ∧ a ≠ b) ∧
    (∀ p ∈ (update_dashboard T R G sel yr rr).trendProj,
      p.1 ∈ (filteredMovies T sel yr.1 yr.2).filterMap
          (fun m => extract_year m.title) ∧
      p.2 = meanQ (((trendKnown R (filteredMovies T sel yr.1 yr.2)).filter
          (fun q => q.1 == p.1)).map Prod.snd)) ∧
    (update_dashboard T R G sel yr rr).trendProj
      = (update_dashboard T R G sel yr rr').trendProj := by
  set fm := filteredMovies T sel yr.1 yr.2 with hfm
  have hproj : (update_dashboard T R G sel yr rr).trendProj
      = yearly_avg R fm := rfl
  refine ⟨?_, ?_, rfl⟩
  · rw [hproj]
    have hkeys : (yearly_avg R fm).map Prod.fst
        = groupKeysAsc ((trendKnown R fm).map Prod.fst) := by
      simp [yearly_avg, List.map_map, Function.comp_def]
    rw [hkeys]
    have hsorted : (groupKeysAsc ((trendKnown R fm).map Prod.fst)).Pairwise
        (fun a b => pyStrLE a b = true) :=
      List.sorted_mergeSort
        (fun a b c => pyStrLE_trans a b c)
        (fun a b => pyStrLE_total a b) _
    have hnd : (groupKeysAsc ((trendKnown R fm).map Prod.fst)).Nodup :=
      (List.mergeSort_perm _ _).symm.nodup (List.nodup_dedup _)
    exact hsorted.and hnd
  · rw [hproj]
    intro p hp
    rcases List.mem_map.1 hp with ⟨y, hy, rfl⟩
    constructor
    · have hy2 : y ∈ (trendKnown R fm).map Prod.fst := by
        rw [groupKeysAsc, List.mem_mergeSort, List.mem_dedup] at hy
        exact hy
      rcases List.mem_map.1 hy2 with ⟨q, hq, rfl⟩
      rcases List.mem_flatMap.1 hq with ⟨r, _, hq2⟩
      rcases List.mem_filterMap.1 hq2 with ⟨m, hm, hmq⟩
      cases he : extract_year m.title with
      | none => rw [he] at hmq; cases hmq
      | some z =>
        rw [he] at hmq
        cases hmq
        exact List.mem_filterMap.2 ⟨m, (List.mem_filter.1 hm).1, he⟩
    · rfl

unseal List.merge List.mergeSort Rat.mul Rat.inv Rat.add Nat.gcd in
/-- C8 witness: the membership part of the trend theorem applied to a
concrete one-title, one-event dataset. -/
theorem c8_witness :
    ("2000", (4 : Rat)) ∈ (update_dashboard [⟨1, "A (2000)", "Comedy"⟩]
        [⟨1, 1, 4⟩] [] ["Comedy"] (1990, 2010) (0, 5)).trendProj ∧
    ("2000" ∈ (filteredMovies [⟨1, "A (2000)", "Comedy"⟩] ["Comedy"]
        1990 2010).filterMap (fun m => extract_year m.title) ∧
      (4 : Rat) = meanQ (((trendKnown [⟨1, 1, 4⟩]
          (filteredMovies [⟨1, "A (2000)", "Comedy"⟩] ["Comedy"] 1990 2010)).filter
        (fun q => q.1 == "2000")).map Prod.snd)) :=
  ⟨by decide,
   (c8_theorem [⟨1, "A (2000)", "Comedy"⟩] [⟨1, 1, 4⟩] [] ["Comedy"]
     (1990, 2010) (0, 5) (0, 5)).2.1 ("2000", (4 : Rat)) (by decide)⟩

unseal List.merge List.mergeSort MovieApp.firstDedup in
/-- C9 (counterexample): two tags with equal counts are returned in first
appearance order, not in ascending tag order — "zeta" is listed before
"alpha" although both have count 1. -/
theorem c9_counterexample :
    tag_counts [⟨1, 1, "zeta"⟩, ⟨2, 1, "alpha"⟩] [1]
        = [("zeta", 1), ("alpha", 1)] ∧
    tag_counts [⟨1, 1, "zeta"⟩, ⟨2, 1, "alpha"⟩] [1]
        ≠ [("alpha", 1), ("zeta", 1)] :=
  ⟨by decide, by decide⟩

/-- C9 (amended): the tag-frequency projection restricts the tag events to
the filtered title ids, returns one row per distinct tag carrying its
occurrence count, sorted by count descending, cut to the first 20 rows —
but ties between equal counts keep the tags' first-appearance order rather
than being broken by tag string ascending. -/
theorem c9_theorem (G : List TagEvent) (fIds : List Nat) :
    (∀ p ∈ tag_counts G fIds,
      p.1 ∈ (G.filter (fun t => fIds.contains t.movieId)).map (·.tag) ∧
      p.2 = ((G.filter (fun t => fIds.contains t.movieId)).map (·.tag)).count p.1) ∧
    (tag_counts G fIds).Pairwise (fun a b => b.2 ≤ a.2) ∧
    (tag_counts G fIds).length
      = min 20 (firstDedup
          ((G.filter (fun t => fIds.contains t.movieId)).map (·.tag))).length := by
  have htr : ∀ a b c : String × Nat,
      (decide (b.2 ≤ a.2)) = true → (decide (c.2 ≤ b.2)) = true →
      (decide (c.2 ≤ a.2)) = true := by
    intro a b c h1 h2
    rw [decide_eq_true_eq] at h1 h2 ⊢
    exact h2.trans h1
  have htot : ∀ a b : String × Nat,
      (decide (b.2 ≤ a.2) || decide (a.2 ≤ b.2)) = true := by
    intro a b
    rcases Nat.le_total b.2 a.2 with h | h <;> simp [h]
  refine ⟨?_, ?_, ?_⟩
  · intro p hp
    have hp2 := List.mem_of_mem_take hp
    rw [value_counts, List.mem_mergeSort] at hp2
    rcases List.mem_map.1 hp2 with ⟨t, ht, rfl⟩
    exact ⟨(mem_firstDedup _ t).1 ht, rfl⟩
  · have hs : ((((firstDedup ((G.filter
        (fun t => fIds.contains t.movieId)).map (·.tag))).map
          (fun t => (t, ((G.filter (fun t => fIds.contains t.movieId)).map
            (·.tag)).count t))).mergeSort
        (fun a b => decide (b.2 ≤ a.2))).Pairwise
          (fun a b : String × Nat => decide (b.2 ≤ a.2) = true)) :=
      List.sorted_mergeSort htr htot _
    exact ((hs.sublist (List.take_sublist 20 _)).imp
      (fun h => of_decide_eq_true h))
  · simp [tag_counts, value_counts]

unseal List.merge List.mergeSort MovieApp.firstDedup in
/-- C9 witness: the count/membership part applied to a concrete dataset. -/
theorem c9_witness :
    ("funny", 1) ∈ tag_counts [⟨1, 1, "funny"⟩] [1] ∧
    ("funny" ∈ (([⟨1, 1, "funny"⟩] : List TagEvent).filter
        (fun t => [1].contains t.movieId)).map (·.tag) ∧
      1 = ((([⟨1, 1, "funny"⟩] : List TagEvent).filter
        (fun t => [1].contains t.movieId)).map (·.tag)).count "funny") :=
  ⟨by decide, (c9_theorem [⟨1, 1, "funny"⟩] [1]).1 ("funny", 1) (by decide)⟩

/-- C10: a title whose display name has no parseable year is excluded from
the filtered title set for every filter selection; given unique title ids,
its id never survives into the filtered id set, no Top-N row carries its
id, and the trend and tag projections are unchanged if its rating and tag
events are deleted — it appears in no projection. -/
theorem c10_theorem (T : List Movie) (R : List Rating) (G : List TagEvent)
    (sel : List String) (yr : Nat × Nat) (rr : Rat × Rat) (m : Movie)
    (hm : m ∈ T) (hy : extract_year m.title = none)
    (huniq : ∀ m' ∈ T, m'.movieId = m.movieId → m' = m) :
    m ∉ filteredMovies T sel yr.1 yr.2 ∧
    m.movieId ∉ (filteredMovies T sel yr.1 yr.2).map (·.movieId) ∧
    (∀ r ∈ (update_dashboard T R G sel yr rr).topProj,
      r.movieId ≠ m.movieId) ∧
    (update_dashboard T R G sel yr rr).trendProj
      = yearly_avg (R.filter (fun e => !(e.movieId == m.movieId)))
          (filteredMovies T sel yr.1 yr.2) ∧
    (update_dashboard T R G sel yr rr).tagProj
      = tag_counts (G.filter (fun t => !(t.movieId == m.movieId)))
          ((filteredMovies T sel yr.1 yr.2).map (·.movieId)) := by
  set fm := filteredMovies T sel yr.1 yr.2 with hfmdef
  have h1 : m ∉ fm := by
    intro h
    rw [hfmdef, filteredMovies, List.mem_filter, hy] at h
    simp [yearBetween] at h
  have h2 : m.movieId ∉ fm.map (·.movieId) := by
    intro h
    rcases List.mem_map.1 h with ⟨m', hm', heq⟩
    have hmT : m' ∈ T := (List.mem_filter.1 (hfmdef ▸ hm')).1
    exact h1 ((huniq m' hmT heq) ▸ hm')
  refine ⟨h1, h2, ?_, ?_, ?_⟩
  · intro r hr heq
    have hr2 := List.mem_of_mem_take hr
    rw [List.mem_mergeSort] at hr2
    have hr3 := (List.mem_filter.1 hr2).2
    rw [Bool.and_eq_true] at hr3
    have hr4 : r.movieId ∈ fm.map (·.movieId) := by
      have h5 := hr3.1
      rw [List.contains, List.elem_iff] at h5
      exact h5
    exact h2 (heq ▸ hr4)
  · have hcons : ∀ (e : Rating) (es : List Rating), trendKnown (e :: es) fm
        = ((fm.filter (fun m' => m'.movieId == e.movieId)).filterMap
            (fun m' => (extract_year m'.title).map (fun y => (y, e.rating))))
          ++ trendKnown es fm := by
      intro e es
      simp [trendKnown]
    have hknown : ∀ (Rs : List Rating),
        trendKnown (Rs.filter (fun e => !(e.movieId == m.movieId))) fm
          = trendKnown Rs fm := by
      intro Rs
      induction Rs with
      | nil => rfl
      | cons e es ih =>
        by_cases he : e.movieId = m.movieId
        · have hnil : fm.filter (fun m' => m'.movieId == e.movieId) = [] := by
            apply List.filter_eq_nil_iff.2
            intro m' hm' hbeq
            have hid : m'.movieId = e.movieId := by simpa using hbeq
            exact h2 (List.mem_map.2 ⟨m', hm', hid.trans he⟩)
          have hdrop : (e :: es).filter (fun x => !(x.movieId == m.movieId))
              = es.filter (fun x => !(x.movieId == m.movieId)) := by
            simp [List.filter_cons, he]
          rw [hdrop, ih, hcons e es, hnil]
          simp
        · have hkeep : (e :: es).filter (fun x => !(x.movieId == m.movieId))
              = e :: es.filter (fun x => !(x.movieId == m.movieId)) := by
            simp [List.filter_cons, he]
          rw [hkeep, hcons, hcons, ih]
    show yearly_avg R fm = yearly_avg (R.filter (fun e => !(e.movieId == m.movieId))) fm
    unfold yearly_avg
    rw [hknown R]
  · have hfilter : (G.filter (fun t => !(t.movieId == m.movieId))).filter
        (fun t => (fm.map (·.movieId)).contains t.movieId)
        = G.filter (fun t => (fm.map (·.movieId)).contains t.movieId) := by
      rw [List.filter_filter]
      apply List.filter_congr
      intro t _
      by_cases hp : (fm.map (·.movieId)).contains t.movieId = true
      · have hq : t.movieId ≠ m.movieId := by
          intro hteq
          rw [List.contains, List.elem_iff] at hp
          exact h2 (hteq ▸ hp)
        simp [hp, hq]
      · have hp2 : (fm.map (·.movieId)).contains t.movieId = false :=
          Bool.eq_false_iff.2 hp
        rw [hp2, Bool.false_and]
    show tag_counts G (fm.map (·.movieId))
      = tag_counts (G.filter (fun t => !(t.movieId == m.movieId))) (fm.map (·.movieId))
    unfold tag_counts
    rw [hfilter]

/-- C10 witness: the exclusion conclusion applied to a concrete yearless
title. -/
theorem c10_witness :
    extract_year "NoYear" = none ∧
    (⟨1, "NoYear", "Comedy"⟩ : Movie)
      ∉ filteredMovies [⟨1, "NoYear", "Comedy"⟩] ["Comedy"] 1990 2010 :=
  ⟨by decide,
   (c10_theorem [⟨1, "NoYear", "Comedy"⟩] [⟨1, 1, 3⟩] [⟨1, 1, "x"⟩]
     ["Comedy"] (1990, 2010) (0, 5) ⟨1, "NoYear", "Comedy"⟩
     (by decide) (by decide) (by decide)).1⟩

end MovieApp
